import Mathlib

/-!
Verification development for the GRO (Generic Receive Offload) dispatcher
of pkg/tcpip/stack/gro.go.

Modelling conventions (shallow embedding):
* Machine integers are `Nat` with explicit `% 2^w` where the Go code relies
  on wrapping (`uint16` total lengths, `uint32` sequence numbers, `uint8`
  flag bytes); `int` arithmetic that cannot wrap in practice is `Int`.
* A `PacketBuffer` is modelled by the byte list of `pkt.Data()` plus its
  reference count and the `RXChecksumValidated` bit.  Header accessors of
  `header.IPv4` / `header.TCP` are modelled as record fields (the PacketView
  of the spec); checksum validation is an oracle bit on the candidate.
* The intrusive `groPacketList` of a bucket is modelled by the Lean list of
  its live entries in front-to-back order; `findGROPacket`'s returned
  `*groPacket` pointer is modelled by the entry's position in that list.
  The preallocated slot pool (`packetsPrealloc`/`allocIdxs`) is storage
  management below this level of abstraction and is not represented.
* Time is `Int` nanoseconds; `dispatch` and `flush` take `now` explicitly.
* Delivering a packet to a NetworkEndpoint (`ep.HandlePacket`) is modelled
  by appending an `(endpoint, packet)` pair to the returned delivery list.
-/

/-- groNBuckets from gro.go: the number of GRO buckets. -/
def groNBuckets : Nat := 8

/-- groBucketSize from gro.go: the size of each GRO bucket. -/
def groBucketSize : Nat := 8

/-- groMaxPacketSize from gro.go: the maximum size of a GRO'd packet
(1 << 16). -/
def groMaxPacketSize : Nat := 65536

/-- header.IPv4MinimumSize (20 bytes). -/
def ipv4MinimumSize : Nat := 20

/-- header.TCPMinimumSize (20 bytes). -/
def tcpMinimumSize : Nat := 20

/-- header.IPv4ProtocolNumber (0x0800). -/
def ipv4ProtocolNumber : Nat := 2048

/-- header.TCPProtocolNumber (6). -/
def tcpProtocolNumber : Nat := 6

/-- header.TCPFlagFin. -/
def tcpFlagFin : Nat := 1

/-- header.TCPFlagSyn. -/
def tcpFlagSyn : Nat := 2

/-- header.TCPFlagRst. -/
def tcpFlagRst : Nat := 4

/-- header.TCPFlagPsh. -/
def tcpFlagPsh : Nat := 8

/-- header.TCPFlagAck. -/
def tcpFlagAck : Nat := 16

/-- header.TCPFlagUrg. -/
def tcpFlagUrg : Nat := 32

/-- header.TCPFlagEce. -/
def tcpFlagEce : Nat := 64

/-- header.TCPFlagCwr. -/
def tcpFlagCwr : Nat := 128

/-- The mask URG|PSH|RST|SYN|FIN used by the flush decision on line 322 of
gro.go (32+8+4+2+1). -/
def tcpFlushFlagMask : Nat := 47

/-- The complement, within a uint8, of CWR|FIN|PSH: the mask used by the
flag-difference check `(flags^groPktFlags)&^(CWR|FIN|PSH)` in
findGROPacket (255 - 128 - 8 - 1). -/
def tcpFlagDiffMask : Nat := 118

/-- uint16 wrapping subtraction, as performed by Go on `uint16` values. -/
def sub16 (a b : Nat) : Nat := ((a % 65536) + 65536 - b % 65536) % 65536

/-- Model of a PacketBuffer: the bytes of `pkt.Data()`, the reference count
and the RXChecksumValidated bit. -/
structure Packet where
  data : List Nat
  refCount : Nat
  rxChecksumValidated : Bool
deriving DecidableEq, Inhabited

/-- PacketBuffer.IncRef. -/
def incRef (p : Packet) : Packet := { p with refCount := p.refCount + 1 }

/-- The IPv4 header fields read by gro.go (a mutable copy of the header, per
the spec data model). -/
structure IPv4Header where
  totalLength : Nat
  headerLength : Nat
  ttl : Nat
  tos : Nat
  fragmentOffset : Nat
  moreFragments : Bool
  dontFragment : Bool
  protocol : Nat
  srcAddr : List Nat
  dstAddr : List Nat
deriving DecidableEq, Inhabited

/-- The TCP header fields read by gro.go.  `options` models the header
bytes from offset TCPMinimumSize up to DataOffset. -/
structure TCPHeader where
  srcPort : Nat
  dstPort : Nat
  seqNum : Nat
  ackNum : Nat
  dataOffset : Nat
  flags : Nat
  options : List Nat
deriving DecidableEq, Inhabited

/-- groPacket: a packet undergoing GRO (an in-progress coalesced packet). -/
structure GROPacket where
  pkt : Packet
  ipHdr : IPv4Header
  tcpHdr : TCPHeader
  created : Int
  ep : Nat
deriving DecidableEq, Inhabited

/-- groPacket.payloadSize (gro.go lines 132-134):
`ipHdr.TotalLength() - IPv4MinimumSize - uint16(tcpHdr.DataOffset())`,
computed in uint16 arithmetic. -/
def payloadSize (g : GROPacket) : Nat :=
  sub16 g.ipHdr.totalLength (ipv4MinimumSize + g.tcpHdr.dataOffset)

/-- A delivery of a packet to a network endpoint
(`ep.HandlePacket(pkt)`). -/
structure Delivery where
  ep : Nat
  pkt : Packet
deriving DecidableEq, Inhabited

/-- The candidate of one dispatch call: the arriving packet together with
its parsed headers (PacketView) and the outcome of checksum validation
(an oracle for `ipHdr.IsValid`, `ipHdr.IsChecksumValid` and
`tcpHdr.IsChecksumValid`, gro.go lines 272-277). -/
structure Candidate where
  pkt : Packet
  netProto : Nat
  ipHdr : IPv4Header
  tcpHdr : TCPHeader
  checksumOk : Bool
deriving DecidableEq, Inhabited

/-- groDispatcher state: the stored interval (nanoseconds, an int64, so it
may be negative) and the eight buckets, each the front-to-back list of its
staged entries. -/
structure GROState where
  intervalNS : Int
  buckets : Fin groNBuckets → List GROPacket

/-- groDispatcher.init: empty buckets and a stored interval. -/
def init (d : Int) : GROState := { intervalNS := d, buckets := fun _ => [] }

/-- groDispatcher.setInterval: stores the new interval verbatim
(`gd.intervalNS.Store(interval.Nanoseconds())`).  The signal on the
`newInterval` channel wakes the timer worker, whose reactions (`flushAll`
on a zero interval, periodic `flush` otherwise) are separate steps of the
`Reachable` relation below. -/
def setInterval (gd : GROState) (d : Int) : GROState := { gd with intervalNS := d }

/-- The 4-tuple comparison of findGROPacket (gro.go lines 348-355): the
entry is skipped (`continue`) unless source address, destination address,
source port and destination port all agree. -/
def sameTuple (ip : IPv4Header) (tcp : TCPHeader) (g : GROPacket) : Bool :=
  decide (ip.srcAddr = g.ipHdr.srcAddr) && decide (ip.dstAddr = g.ipHdr.dstAddr) &&
  decide (tcp.srcPort = g.tcpHdr.srcPort) && decide (tcp.dstPort = g.tcpHdr.dstPort)

/-- The flow key of a staged entry (source IP, destination IP, source port,
destination port). -/
def entryKey (g : GROPacket) : List Nat × List Nat × Nat × Nat :=
  (g.ipHdr.srcAddr, g.ipHdr.dstAddr, g.tcpHdr.srcPort, g.tcpHdr.dstPort)

/-- The flow key of a candidate header pair. -/
def candKey (ip : IPv4Header) (tcp : TCPHeader) : List Nat × List Nat × Nat × Nat :=
  (ip.srcAddr, ip.dstAddr, tcp.srcPort, tcp.dstPort)

/-- The chain of early-return checks of findGROPacket on a same-flow entry
(gro.go lines 360-387), as one disjunction; `true` means the entry must be
flushed (`return groPkt, true`).  The disjuncts, in source order: TTL or
TOS differ; the candidate's CWR flag is set; the flags differ outside
CWR|FIN|PSH; ACK numbers differ; TCP header lengths differ; the expected
sequence number (uint32) differs; an option byte differs; or the coalesced
size limit `int(ipHdr.TotalLength()) - IPv4MinimumSize - int(dataOff) +
groPkt.pkt.Data().Size() >= groMaxPacketSize` is hit. -/
def entryFlushRequired (g : GROPacket) (ip : IPv4Header) (tcp : TCPHeader) : Bool :=
  decide (ip.ttl ≠ g.ipHdr.ttl) || decide (ip.tos ≠ g.ipHdr.tos) ||
  decide (tcp.flags &&& tcpFlagCwr ≠ 0) ||
  decide ((tcp.flags ^^^ g.tcpHdr.flags) &&& tcpFlagDiffMask ≠ 0) ||
  decide (tcp.ackNum ≠ g.tcpHdr.ackNum) ||
  decide (tcp.dataOffset ≠ g.tcpHdr.dataOffset) ||
  decide ((g.tcpHdr.seqNum + payloadSize g) % 4294967296 ≠ tcp.seqNum % 4294967296) ||
  decide (tcp.options ≠ g.tcpHdr.options) ||
  decide ((65536 : Int) ≤
    (ip.totalLength : Int) - (ipv4MinimumSize : Int) - (tcp.dataOffset : Int) +
    (g.pkt.data.length : Int))

/-- The loop of findGROPacket (gro.go lines 346-390): walk the bucket front
to back, skip entries of a different 4-tuple, and classify the first entry
of the same flow.  The returned `*groPacket` is modelled by the entry's
position (counted from `i`). -/
def findGROPacketAux (ip : IPv4Header) (tcp : TCPHeader) :
    Nat → List GROPacket → Option Nat × Bool
  | _, [] => (none, false)
  | i, g :: rest =>
    if sameTuple ip tcp g then (some i, entryFlushRequired g ip tcp)
    else findGROPacketAux ip tcp (i + 1) rest

/-- findGROPacket (gro.go lines 345-393): returns the position of the
matching entry (or none) and whether it must be flushed. -/
def findGROPacket (bucket : List GROPacket) (ip : IPv4Header) (tcp : TCPHeader) :
    Option Nat × Bool :=
  findGROPacketAux ip tcp 0 bucket

/-- groDispatcher.bucketForPacket (gro.go lines 395-408): sum of the source
and destination address bytes plus both ports. -/
def bucketForPacket (ip : IPv4Header) (tcp : TCPHeader) : Nat :=
  ip.srcAddr.sum + ip.dstAddr.sum + tcp.srcPort + tcp.dstPort

/-- The bucket chosen by dispatch (gro.go line 290):
`bucketForPacket(...) & groNBucketsMask`, with `& 7` written as `% 8`. -/
def bucketIdx (c : Candidate) : Fin groNBuckets :=
  ⟨bucketForPacket c.ipHdr c.tcpHdr % groNBuckets, Nat.mod_lt _ (by decide)⟩

/-- The merge step of dispatch (gro.go lines 300-312): append the
candidate's TCP payload (its data after IPv4MinimumSize + dataOff bytes) to
the stored packet, OR the candidate's FIN and PSH flags into the stored TCP
flags (a uint8), and add `tcpPayloadSize` to the stored IP total length (a
uint16). -/
def mergeEntry (g : GROPacket) (c : Candidate) (tcpPayloadSize : Nat) (flags : Nat) :
    GROPacket :=
  { g with
    pkt := { g.pkt with
      data := g.pkt.data ++ c.pkt.data.drop (ipv4MinimumSize + c.tcpHdr.dataOffset) }
    tcpHdr := { g.tcpHdr with
      flags := (g.tcpHdr.flags ||| (flags &&& (tcpFlagFin ||| tcpFlagPsh))) % 256 }
    ipHdr := { g.ipHdr with
      totalLength := (g.ipHdr.totalLength + tcpPayloadSize) % 65536 } }

/-- groBucket.insert (gro.go lines 71-82): the new entry staged at the tail
of a bucket, built from `pkt.IncRef()`, the parsed headers, the arrival
time and the dispatch endpoint. -/
def mkEntry (pkt0 : Packet) (c : Candidate) (ep : Nat) (now : Int) : GROPacket :=
  { pkt := incRef pkt0, ipHdr := c.ipHdr, tcpHdr := c.tcpHdr, created := now, ep := ep }

/-- The flush decision for the incoming segment (gro.go line 322):
`uint32(ipHdr.TotalLength()) != mtu ||
flags & (URG|PSH|RST|SYN|FIN) != 0`, computed from the raw candidate
headers. -/
def dispatchFlushDecision (c : Candidate) (mtu : Nat) : Bool :=
  decide (c.ipHdr.totalLength ≠ mtu) || decide (c.tcpHdr.flags &&& tcpFlushFlagMask ≠ 0)

/-- The bucket-manipulating part of dispatch (gro.go lines 290-339), acting
on the chosen bucket: find the matching entry, flush it or merge into it,
then apply the flush decision (flush the merged entry, deliver the
unmerged candidate, or stage the candidate, evicting the oldest entry of a
full bucket first).  `pkt0` is the candidate packet with
RXChecksumValidated set (gro.go line 283).  Returns the new bucket
contents and the deliveries made, in order. -/
def dispatchBucket (bucket : List GROPacket) (c : Candidate) (pkt0 : Packet)
    (ep : Nat) (mtu : Nat) (now : Int) : List GROPacket × List Delivery :=
  let tcpPayloadSize := sub16 c.ipHdr.totalLength (ipv4MinimumSize + c.tcpHdr.dataOffset)
  let flags := c.tcpHdr.flags
  let step1 : List GROPacket × Option Nat × List Delivery :=
    match findGROPacket bucket c.ipHdr c.tcpHdr with
    | (some i, true) =>
      (bucket.eraseIdx i, none, [⟨ep, (bucket.getD i default).pkt⟩])
    | (some i, false) =>
      (bucket.set i (mergeEntry (bucket.getD i default) c tcpPayloadSize flags), some i, [])
    | (none, _) => (bucket, none, [])
  match step1 with
  | (bucket1, groIdx, d1) =>
    match dispatchFlushDecision c mtu, groIdx with
    | true, some i => (bucket1.eraseIdx i, d1 ++ [⟨ep, (bucket1.getD i default).pkt⟩])
    | true, none => (bucket1, d1 ++ [⟨ep, pkt0⟩])
    | false, some _ => (bucket1, d1)
    | false, none =>
      if bucket1.length = groBucketSize then
        ((bucket1.drop 1) ++ [mkEntry pkt0 c ep now],
         d1 ++ [⟨ep, (bucket1.getD 0 default).pkt⟩])
      else (bucket1 ++ [mkEntry pkt0 c ep now], d1)

/-- The GRO-enabled path of groDispatcher.dispatch (gro.go lines
220-340), entered when the disabled shortcut is not taken: the early-exit
filters (non-IPv4, truncated headers, fragmented datagrams, IP options or
non-TCP, malformed TCP, failed checksums) each deliver the packet
unchanged; otherwise the packet is marked checksum-validated and handed to
the bucket logic. -/
def dispatchEnabled (gd : GROState) (c : Candidate) (ep : Nat) (mtu : Nat) (now : Int) :
    GROState × List Delivery :=
  if c.netProto ≠ ipv4ProtocolNumber then (gd, [⟨ep, c.pkt⟩])
  else if ¬ (ipv4MinimumSize + tcpMinimumSize ≤ c.pkt.data.length) then (gd, [⟨ep, c.pkt⟩])
  else if ¬ (c.ipHdr.fragmentOffset = 0 ∧ c.ipHdr.moreFragments = false ∧
      c.ipHdr.dontFragment = true) then (gd, [⟨ep, c.pkt⟩])
  else if ¬ (c.ipHdr.headerLength = ipv4MinimumSize ∧
      c.ipHdr.protocol = tcpProtocolNumber) then (gd, [⟨ep, c.pkt⟩])
  else if c.tcpHdr.dataOffset < tcpMinimumSize then (gd, [⟨ep, c.pkt⟩])
  else if ¬ (ipv4MinimumSize + c.tcpHdr.dataOffset ≤ c.pkt.data.length) then
    (gd, [⟨ep, c.pkt⟩])
  else if c.pkt.rxChecksumValidated = false ∧ c.checksumOk = false then (gd, [⟨ep, c.pkt⟩])
  else
    let pkt0 : Packet := { c.pkt with rxChecksumValidated := true }
    let b := bucketIdx c
    let r := dispatchBucket (gd.buckets b) c pkt0 ep mtu now
    ({ gd with buckets := Function.update gd.buckets b r.1 }, r.2)

/-- groDispatcher.dispatch (gro.go lines 213-340): if GRO is disabled
(`gd.intervalNS.Load() == 0`) the packet is simply passed along;
otherwise the enabled path runs. -/
def dispatch (gd : GROState) (c : Candidate) (ep : Nat) (mtu : Nat) (now : Int) :
    GROState × List Delivery :=
  if gd.intervalNS = 0 then (gd, [⟨ep, c.pkt⟩])
  else dispatchEnabled gd c ep mtu now

/-- One bucket of groDispatcher.flush (gro.go lines 418-430).  The loop
walks `for groPkt := bucket.packets.Front(); groPkt != nil;
groPkt = groPkt.Next()`.  A too-new front entry breaks out at once.  An
aged front entry is delivered and removed with `bucket.removeOne(groPkt)`,
which ends with `*pkt = groPacket{}` (gro.go line 101): the removed
groPacket, including the next/prev pointers of its embedded intrusive
groPacketEntry, is reset to the zero value, so the post-statement
`groPkt = groPkt.Next()` reads nil and the loop over this bucket stops
after the first removal. -/
def flushBucketAged (threshold : Int) : List GROPacket → List Delivery × List GROPacket
  | [] => ([], [])
  | g :: rest =>
    if g.created < threshold then ([⟨g.ep, g.pkt⟩], rest) else ([], g :: rest)

/-- List concatenation helper for the per-bucket delivery lists. -/
def joinAll : List (List Delivery) → List Delivery
  | [] => []
  | l :: ls => l ++ joinAll ls

/-- groDispatcher.flush (gro.go lines 411-431): snapshot the interval,
compute the threshold `now - interval`, and run the per-bucket loop over
all buckets in order. -/
def flush (gd : GROState) (now : Int) : GROState × List Delivery :=
  let threshold := now - gd.intervalNS
  ({ gd with buckets := fun i => (flushBucketAged threshold (gd.buckets i)).2 },
   joinAll ((List.finRange groNBuckets).map
     (fun i => (flushBucketAged threshold (gd.buckets i)).1)))

/-- One bucket of groDispatcher.flushAll (gro.go lines 437-443): the same
loop shape as flush without the age test; the same `removeOne` reset nils
the saved iterator, so at most one entry per bucket is delivered and
removed per call. -/
def flushBucketAll : List GROPacket → List Delivery × List GROPacket
  | [] => ([], [])
  | g :: rest => ([⟨g.ep, g.pkt⟩], rest)

/-- groDispatcher.flushAll (gro.go lines 433-445). -/
def flushAll (gd : GROState) : GROState × List Delivery :=
  ({ gd with buckets := fun i => (flushBucketAll (gd.buckets i)).2 },
   joinAll ((List.finRange groNBuckets).map (fun i => (flushBucketAll (gd.buckets i)).1)))

/-- A well-formed arriving packet: the buffer holds exactly the IPv4
datagram its header describes (total length = buffer size, the headers fit,
and the total length field is a uint16 value). -/
def WFCandidate (c : Candidate) : Prop :=
  c.pkt.data.length = c.ipHdr.totalLength ∧
  ipv4MinimumSize + c.tcpHdr.dataOffset ≤ c.ipHdr.totalLength ∧
  c.ipHdr.totalLength < 65536

/-- Well-formedness of a staged entry, maintained by dispatch: the stored
total length tracks the coalesced buffer size exactly (so it has never
wrapped), the headers fit, and it is still a uint16 value. -/
def StagedWF (g : GROPacket) : Prop :=
  g.ipHdr.totalLength = g.pkt.data.length ∧
  ipv4MinimumSize + g.tcpHdr.dataOffset ≤ g.ipHdr.totalLength ∧
  g.ipHdr.totalLength < groMaxPacketSize

/-- The per-bucket invariant: bounded size, well-formed entries, and at
most one staged entry per flow 4-tuple. -/
def BucketInv (l : List GROPacket) : Prop :=
  l.length ≤ groBucketSize ∧
  (∀ g ∈ l, StagedWF g) ∧
  (∀ k, l.countP (fun g => decide (entryKey g = k)) ≤ 1)

/-- The dispatcher invariant: every bucket satisfies `BucketInv`. -/
def StateInv (s : GROState) : Prop := ∀ b, BucketInv (s.buckets b)

/-- Dispatcher states reachable from `init` by dispatching well-formed
packets, timer flushes, flushAll (the worker's reaction to a zero
interval), and setInterval. -/
inductive Reachable : GROState → Prop where
  | init : ∀ d, Reachable (init d)
  | step_dispatch : ∀ s c ep mtu now, Reachable s → WFCandidate c →
      Reachable (dispatch s c ep mtu now).1
  | step_flush : ∀ s now, Reachable s → Reachable (flush s now).1
  | step_flushAll : ∀ s, Reachable s → Reachable (flushAll s).1
  | step_setInterval : ∀ s d, Reachable s → Reachable (setInterval s d)

/-- Dispatcher states reachable from `init` by arbitrary operations, with
no well-formedness assumption on dispatched packets. -/
inductive ReachableAny : GROState → Prop where
  | init : ∀ d, ReachableAny (init d)
  | step_dispatch : ∀ s c ep mtu now, ReachableAny s →
      ReachableAny (dispatch s c ep mtu now).1
  | step_flush : ∀ s now, ReachableAny s → ReachableAny (flush s now).1
  | step_flushAll : ∀ s, ReachableAny s → ReachableAny (flushAll s).1
  | step_setInterval : ∀ s d, ReachableAny s → ReachableAny (setInterval s d)

/-- The part of the bucket invariant that holds for arbitrary inputs:
bounded size and at most one staged entry per flow 4-tuple. -/
def BucketLoose (l : List GROPacket) : Prop :=
  l.length ≤ groBucketSize ∧
  (∀ k, l.countP (fun g => decide (entryKey g = k)) ≤ 1)

/-- If the findGROPacket loop finds no entry, no entry of the bucket has
the candidate's 4-tuple. -/
theorem findGROPacketAux_none (ip : IPv4Header) (tcp : TCPHeader) :
    ∀ (n : Nat) (l : List GROPacket), (findGROPacketAux ip tcp n l).1 = none →
    ∀ g ∈ l, sameTuple ip tcp g = false := by
  intro n l
  induction l generalizing n with
  | nil => intro _ g hg; cases hg
  | cons a rest ih =>
    intro h g hg
    by_cases hs : sameTuple ip tcp a
    · simp [findGROPacketAux, hs] at h
    · simp only [findGROPacketAux, hs, Bool.false_eq_true, if_false] at h
      rcases List.mem_cons.mp hg with rfl | hg
      · simpa using hs
      · exact ih (n + 1) h g hg

/-- If the findGROPacket loop returns an entry, the returned position is a
valid offset into the walked list, the entry there has the candidate's
4-tuple, and the returned Bool is the flush classification of that
entry. -/
theorem findGROPacketAux_some (ip : IPv4Header) (tcp : TCPHeader) :
    ∀ (n : Nat) (l : List GROPacket) (i : Nat) (b : Bool),
    findGROPacketAux ip tcp n l = (some i, b) →
    ∃ j, j < l.length ∧ i = n + j ∧ sameTuple ip tcp (l.getD j default) = true ∧
      b = entryFlushRequired (l.getD j default) ip tcp := by
  intro n l
  induction l generalizing n with
  | nil => intro i b h; simp [findGROPacketAux] at h
  | cons a rest ih =>
    intro i b h
    by_cases hs : sameTuple ip tcp a
    · simp only [findGROPacketAux, hs, if_true, Prod.mk.injEq, Option.some.injEq] at h
      obtain ⟨rfl, rfl⟩ := h
      exact ⟨0, by simp, by omega, by simpa using hs, by simp⟩
    · simp only [findGROPacketAux, hs, Bool.false_eq_true, if_false] at h
      obtain ⟨j, hj, hij, hsame, hb⟩ := ih (n + 1) i b h
      exact ⟨j + 1, by simpa using hj, by omega, by simpa using hsame, by simpa using hb⟩

/-- findGROPacket returning none means no staged entry of the bucket has
the candidate's 4-tuple. -/
theorem findGROPacket_none (bucket : List GROPacket) (ip : IPv4Header) (tcp : TCPHeader)
    (h : (findGROPacket bucket ip tcp).1 = none) :
    ∀ g ∈ bucket, sameTuple ip tcp g = false :=
  findGROPacketAux_none ip tcp 0 bucket h

/-- findGROPacket returning an entry: the position is in range, the entry
there has the same 4-tuple, and the Bool is its flush classification. -/
theorem findGROPacket_some (bucket : List GROPacket) (ip : IPv4Header) (tcp : TCPHeader)
    (i : Nat) (b : Bool) (h : findGROPacket bucket ip tcp = (some i, b)) :
    i < bucket.length ∧ sameTuple ip tcp (bucket.getD i default) = true ∧
      b = entryFlushRequired (bucket.getD i default) ip tcp := by
  obtain ⟨j, hj, hij, hsame, hb⟩ := findGROPacketAux_some ip tcp 0 bucket i b h
  have : i = j := by omega
  subst this
  exact ⟨hj, hsame, hb⟩

/-- Unfolding a negative flush classification into its component facts. -/
theorem entryFlushRequired_eq_false {g : GROPacket} {ip : IPv4Header} {tcp : TCPHeader}
    (h : entryFlushRequired g ip tcp = false) :
    ip.ttl = g.ipHdr.ttl ∧ ip.tos = g.ipHdr.tos ∧
    tcp.flags &&& tcpFlagCwr = 0 ∧
    (tcp.flags ^^^ g.tcpHdr.flags) &&& tcpFlagDiffMask = 0 ∧
    tcp.ackNum = g.tcpHdr.ackNum ∧
    tcp.dataOffset = g.tcpHdr.dataOffset ∧
    (g.tcpHdr.seqNum + payloadSize g) % 4294967296 = tcp.seqNum % 4294967296 ∧
    tcp.options = g.tcpHdr.options ∧
    (ip.totalLength : Int) - (ipv4MinimumSize : Int) - (tcp.dataOffset : Int) +
      (g.pkt.data.length : Int) < 65536 := by
  simp only [entryFlushRequired, Bool.or_eq_false_iff, decide_eq_false_iff_not,
    not_not, not_le, not_lt] at h
  tauto

/-- Exact value of the uint16 subtraction when it cannot wrap. -/
theorem sub16_eq {a b : Nat} (hb : b ≤ a) (ha : a < 65536) : sub16 a b = a - b := by
  have hb' : b < 65536 := lt_of_le_of_lt hb ha
  unfold sub16
  rw [Nat.mod_eq_of_lt ha, Nat.mod_eq_of_lt hb']
  have h1 : a + 65536 - b = (a - b) + 65536 := by omega
  rw [h1, Nat.add_mod_right, Nat.mod_eq_of_lt (by omega)]

/-- Merging preserves the flow key of the staged entry. -/
theorem entryKey_mergeEntry (g : GROPacket) (c : Candidate) (t f : Nat) :
    entryKey (mergeEntry g c t f) = entryKey g := rfl

/-- Merging a well-formed candidate into a well-formed staged entry under
the size check of findGROPacket keeps the entry well-formed: the updated
uint16 total length does not wrap and still tracks the buffer size. -/
theorem mergeEntry_StagedWF {g : GROPacket} {c : Candidate}
    (hg : StagedWF g) (hc : WFCandidate c)
    (hsz : (c.ipHdr.totalLength : Int) - (ipv4MinimumSize : Int) -
      (c.tcpHdr.dataOffset : Int) + (g.pkt.data.length : Int) < 65536) :
    StagedWF (mergeEntry g c
      (sub16 c.ipHdr.totalLength (ipv4MinimumSize + c.tcpHdr.dataOffset)) c.tcpHdr.flags) := by
  obtain ⟨hg1, hg2, hg3⟩ := hg
  obtain ⟨hc1, hc2, hc3⟩ := hc
  have hts : sub16 c.ipHdr.totalLength (ipv4MinimumSize + c.tcpHdr.dataOffset) =
      c.ipHdr.totalLength - (ipv4MinimumSize + c.tcpHdr.dataOffset) := sub16_eq hc2 hc3
  have hcp : c.ipHdr.totalLength - (ipv4MinimumSize + c.tcpHdr.dataOffset) +
      g.pkt.data.length < 65536 := by
    have := hc2
    unfold ipv4MinimumSize at *
    omega
  constructor
  · show (g.ipHdr.totalLength + _) % 65536 = _
    rw [hts]
    have hlen : (g.pkt.data ++ c.pkt.data.drop (ipv4MinimumSize + c.tcpHdr.dataOffset)).length
        = g.pkt.data.length + (c.ipHdr.totalLength - (ipv4MinimumSize + c.tcpHdr.dataOffset)) := by
      simp [List.length_drop]
      omega
    simp only [mergeEntry]
    rw [Nat.mod_eq_of_lt (by omega)]
    simp only [hlen]
    omega
  constructor
  · show ipv4MinimumSize + g.tcpHdr.dataOffset ≤ (g.ipHdr.totalLength + _) % 65536
    rw [hts, Nat.mod_eq_of_lt (by omega)]
    omega
  · show (g.ipHdr.totalLength + _) % 65536 < groMaxPacketSize
    rw [hts, Nat.mod_eq_of_lt (by omega)]
    unfold groMaxPacketSize
    omega

/-- The bucket invariant passes to sublists (removals). -/
theorem BucketInv_sublist {l1 l2 : List GROPacket} (hs : l1.Sublist l2)
    (h : BucketInv l2) : BucketInv l1 := by
  obtain ⟨h1, h2, h3⟩ := h
  exact ⟨le_trans hs.length_le h1, fun g hg => h2 g (hs.subset hg),
    fun k => le_trans (hs.countP_le _) (h3 k)⟩

/-- countP over a set that replaces an element by one with the same flow
key is unchanged. -/
theorem countP_set_key {l : List GROPacket} {i : Nat} {a : GROPacket}
    (hi : i < l.length) (hk : entryKey a = entryKey (l.getD i default)) (k : List Nat × List Nat × Nat × Nat) :
    (l.set i a).countP (fun g => decide (entryKey g = k)) =
    l.countP (fun g => decide (entryKey g = k)) := by
  have hl : l = List.take i l ++ l[i] :: List.drop (i + 1) l := by
    rw [← List.drop_eq_getElem_cons hi, List.take_append_drop]
  rw [List.getD_eq_getElem l default hi] at hk
  rw [List.set_eq_take_append_cons_drop, if_pos hi]
  rw [List.countP_append, List.countP_cons, hk]
  rw [← List.countP_cons, ← List.countP_append, ← hl]

/-- Replacing an entry by a well-formed entry of the same flow key keeps
the bucket invariant. -/
theorem BucketInv_set {l : List GROPacket} {i : Nat} {a : GROPacket}
    (h : BucketInv l) (hi : i < l.length) (hwf : StagedWF a)
    (hk : entryKey a = entryKey (l.getD i default)) : BucketInv (l.set i a) := by
  obtain ⟨h1, h2, h3⟩ := h
  refine ⟨by simpa using h1, fun g hg => ?_, fun k => ?_⟩
  · rcases List.mem_or_eq_of_mem_set hg with hg | rfl
    · exact h2 g hg
    · exact hwf
  · rw [countP_set_key hi hk k]
    exact h3 k

/-- Appending a fresh well-formed entry whose flow key is absent keeps the
bucket invariant, provided there is room. -/
theorem BucketInv_append {l : List GROPacket} {e : GROPacket}
    (h : BucketInv l) (hlen : l.length + 1 ≤ groBucketSize) (hwf : StagedWF e)
    (hnew : ∀ g ∈ l, entryKey g ≠ entryKey e) : BucketInv (l ++ [e]) := by
  obtain ⟨h1, h2, h3⟩ := h
  refine ⟨by simpa using hlen, fun g hg => ?_, fun k => ?_⟩
  · rcases List.mem_append.mp hg with hg | hg
    · exact h2 g hg
    · rw [List.mem_singleton.mp hg]; exact hwf
  · rw [List.countP_append]
    by_cases hke : entryKey e = k
    · have hz : l.countP (fun g => decide (entryKey g = k)) = 0 := by
        rw [List.countP_eq_zero]
        intro g hg
        simp only [decide_eq_true_eq]
        rw [← hke]
        exact hnew g hg
      simp [hz, List.countP_cons, hke]
    · have hz : List.countP (fun g => decide (entryKey g = k)) [e] = 0 := by
        simp [List.countP_cons, hke]
      rw [hz]
      simpa using h3 k

/-- The loose bucket invariant passes to sublists. -/
theorem BucketLoose_sublist {l1 l2 : List GROPacket} (hs : l1.Sublist l2)
    (h : BucketLoose l2) : BucketLoose l1 :=
  ⟨le_trans hs.length_le h.1, fun k => le_trans (hs.countP_le _) (h.2 k)⟩

/-- Replacing an entry by one with the same flow key keeps the loose
bucket invariant. -/
theorem BucketLoose_set {l : List GROPacket} {i : Nat} {a : GROPacket}
    (h : BucketLoose l) (hi : i < l.length)
    (hk : entryKey a = entryKey (l.getD i default)) : BucketLoose (l.set i a) := by
  refine ⟨by simpa using h.1, fun k => ?_⟩
  rw [countP_set_key hi hk k]
  exact h.2 k

/-- Appending an entry whose flow key is absent keeps the loose bucket
invariant, provided there is room. -/
theorem BucketLoose_append {l : List GROPacket} {e : GROPacket}
    (h : BucketLoose l) (hlen : l.length + 1 ≤ groBucketSize)
    (hnew : ∀ g ∈ l, entryKey g ≠ entryKey e) : BucketLoose (l ++ [e]) := by
  refine ⟨by simpa using hlen, fun k => ?_⟩
  rw [List.countP_append]
  by_cases hke : entryKey e = k
  · have hz : l.countP (fun g => decide (entryKey g = k)) = 0 := by
      rw [List.countP_eq_zero]
      intro g hg
      simp only [decide_eq_true_eq]
      rw [← hke]
      exact hnew g hg
    simp [hz, List.countP_cons, hke]
  · have hz : List.countP (fun g => decide (entryKey g = k)) [e] = 0 := by
      simp [List.countP_cons, hke]
    rw [hz]
    simpa using h.2 k

/-- The 4-tuple comparison agrees with flow-key equality. -/
theorem sameTuple_iff (ip : IPv4Header) (tcp : TCPHeader) (g : GROPacket) :
    sameTuple ip tcp g = true ↔ candKey ip tcp = entryKey g := by
  simp only [sameTuple, Bool.and_eq_true, decide_eq_true_eq, candKey, entryKey,
    Prod.mk.injEq]
  tauto

/-- A freshly staged entry carries the candidate's flow key. -/
theorem entryKey_mkEntry (pkt0 : Packet) (c : Candidate) (ep : Nat) (now : Int) :
    entryKey (mkEntry pkt0 c ep now) = candKey c.ipHdr c.tcpHdr := rfl

/-- A freshly staged entry built from a well-formed candidate is
well-formed. -/
theorem mkEntry_StagedWF {pkt0 : Packet} {c : Candidate} {ep : Nat} {now : Int}
    (hc : WFCandidate c) (hp : pkt0.data = c.pkt.data) :
    StagedWF (mkEntry pkt0 c ep now) := by
  obtain ⟨hc1, hc2, hc3⟩ := hc
  exact ⟨by simp [mkEntry, incRef, hp, hc1], hc2, hc3⟩

/-- Erasing the unique entry matching a predicate leaves no matching
entry. -/
theorem countP_eraseIdx_zero {l : List GROPacket} {p : GROPacket → Bool} {i : Nat}
    (hle : l.countP p ≤ 1) (hi : i < l.length) (hpi : p (l.getD i default) = true) :
    (l.eraseIdx i).countP p = 0 := by
  have hl : l = List.take i l ++ l[i] :: List.drop (i + 1) l := by
    rw [← List.drop_eq_getElem_cons hi, List.take_append_drop]
  rw [List.getD_eq_getElem l default hi] at hpi
  rw [List.eraseIdx_eq_take_drop_succ, List.countP_append]
  nth_rewrite 1 [hl] at hle
  rw [List.countP_append, List.countP_cons, hpi, if_pos rfl] at hle
  omega

/-- An entry reported absent by findGROPacket has a flow key different
from the candidate's. -/
theorem key_ne_of_sameTuple_false {ip : IPv4Header} {tcp : TCPHeader} {g : GROPacket}
    (h : sameTuple ip tcp g = false) : entryKey g ≠ candKey ip tcp := by
  intro hk
  have ht : sameTuple ip tcp g = true := (sameTuple_iff ip tcp g).mpr hk.symm
  simp [h] at ht

/-- The bucket logic of dispatch preserves the bucket invariant for a
well-formed candidate. -/
theorem dispatchBucket_inv (bucket : List GROPacket) (c : Candidate) (pkt0 : Packet)
    (ep mtu : Nat) (now : Int) (hb : BucketInv bucket) (hc : WFCandidate c)
    (hp : pkt0.data = c.pkt.data) :
    BucketInv (dispatchBucket bucket c pkt0 ep mtu now).1 := by
  obtain ⟨hb1, hb2, hb3⟩ := hb
  have hbAll : BucketInv bucket := ⟨hb1, hb2, hb3⟩
  have hwfNew : StagedWF (mkEntry pkt0 c ep now) := mkEntry_StagedWF hc hp
  rcases hfind : findGROPacket bucket c.ipHdr c.tcpHdr with ⟨oi, fl⟩
  rcases oi with _ | i
  · -- no entry of the candidate's flow is staged
    have habs : ∀ g ∈ bucket, entryKey g ≠ entryKey (mkEntry pkt0 c ep now) := by
      intro g hg
      rw [entryKey_mkEntry]
      exact key_ne_of_sameTuple_false
        (findGROPacket_none bucket c.ipHdr c.tcpHdr (by rw [hfind]) g hg)
    cases hfl : dispatchFlushDecision c mtu
    · -- stage the candidate, evicting the oldest entry of a full bucket
      by_cases hful : bucket.length = groBucketSize
      · simp only [dispatchBucket, hfind, hfl, hful, if_true]
        refine BucketInv_append (BucketInv_sublist (List.drop_sublist 1 bucket) hbAll)
          ?_ hwfNew ?_
        · simp only [List.length_drop, hful]
          decide
        · intro g hg
          exact habs g ((List.drop_sublist 1 bucket).subset hg)
      · simp only [dispatchBucket, hfind, hfl, hful, if_false]
        refine BucketInv_append hbAll ?_ hwfNew habs
        unfold groBucketSize at *
        omega
    · -- deliver the candidate; the bucket is unchanged
      simpa only [dispatchBucket, hfind, hfl] using hbAll
  · rcases fl with _ | _
    · -- a same-flow entry exists and can be merged into
      obtain ⟨hi, hsame, hflr⟩ := findGROPacket_some bucket c.ipHdr c.tcpHdr i false hfind
      have hwfI : StagedWF (bucket.getD i default) := by
        refine hb2 _ ?_
        rw [List.getD_eq_getElem bucket default hi]
        exact List.getElem_mem hi
      have hsz := (entryFlushRequired_eq_false hflr.symm).2.2.2.2.2.2.2.2
      have hmerged : StagedWF (mergeEntry (bucket.getD i default) c
          (sub16 c.ipHdr.totalLength (ipv4MinimumSize + c.tcpHdr.dataOffset))
          c.tcpHdr.flags) := mergeEntry_StagedWF hwfI hc hsz
      have hset : BucketInv (bucket.set i (mergeEntry (bucket.getD i default) c
          (sub16 c.ipHdr.totalLength (ipv4MinimumSize + c.tcpHdr.dataOffset))
          c.tcpHdr.flags)) :=
        BucketInv_set hbAll hi hmerged (entryKey_mergeEntry _ _ _ _)
      cases hfl : dispatchFlushDecision c mtu
      · simpa only [dispatchBucket, hfind, hfl] using hset
      · simp only [dispatchBucket, hfind, hfl]
        exact BucketInv_sublist (List.eraseIdx_sublist _ i) hset
    · -- a same-flow entry exists and must be flushed first
      obtain ⟨hi, hsame, _⟩ := findGROPacket_some bucket c.ipHdr c.tcpHdr i true hfind
      have herase : BucketInv (bucket.eraseIdx i) :=
        BucketInv_sublist (List.eraseIdx_sublist _ i) hbAll
      have habs : ∀ g ∈ bucket.eraseIdx i, entryKey g ≠ entryKey (mkEntry pkt0 c ep now) := by
        have hz : (bucket.eraseIdx i).countP
            (fun g => decide (entryKey g = candKey c.ipHdr c.tcpHdr)) = 0 := by
          refine countP_eraseIdx_zero (hb3 _) hi ?_
          simp only [decide_eq_true_eq]
          exact ((sameTuple_iff _ _ _).mp hsame).symm
        intro g hg
        rw [entryKey_mkEntry]
        have := List.countP_eq_zero.mp hz g hg
        simpa using this
      cases hfl : dispatchFlushDecision c mtu
      · by_cases hful : (bucket.eraseIdx i).length = groBucketSize
        · simp only [dispatchBucket, hfind, hfl, hful, if_true]
          refine BucketInv_append
            (BucketInv_sublist (List.drop_sublist 1 _) herase) ?_ hwfNew ?_
          · simp only [List.length_drop, hful]
            decide
          · intro g hg
            exact habs g ((List.drop_sublist 1 _).subset hg)
        · simp only [dispatchBucket, hfind, hfl, hful, if_false]
          refine BucketInv_append herase ?_ hwfNew habs
          have := herase.1
          unfold groBucketSize at *
          omega
      · simpa only [dispatchBucket, hfind, hfl] using herase

/-- The bucket logic of dispatch preserves the loose bucket invariant for
an arbitrary candidate (no well-formedness needed). -/
theorem dispatchBucket_loose_inv (bucket : List GROPacket) (c : Candidate)
    (pkt0 : Packet) (ep mtu : Nat) (now : Int) (hb : BucketLoose bucket) :
    BucketLoose (dispatchBucket bucket c pkt0 ep mtu now).1 := by
  obtain ⟨hb1, hb3⟩ := hb
  have hbAll : BucketLoose bucket := ⟨hb1, hb3⟩
  rcases hfind : findGROPacket bucket c.ipHdr c.tcpHdr with ⟨oi, fl⟩
  rcases oi with _ | i
  · have habs : ∀ g ∈ bucket, entryKey g ≠ entryKey (mkEntry pkt0 c ep now) := by
      intro g hg
      rw [entryKey_mkEntry]
      exact key_ne_of_sameTuple_false
        (findGROPacket_none bucket c.ipHdr c.tcpHdr (by rw [hfind]) g hg)
    cases hfl : dispatchFlushDecision c mtu
    · by_cases hful : bucket.length = groBucketSize
      · simp only [dispatchBucket, hfind, hfl, hful, if_true]
        refine BucketLoose_append
          (BucketLoose_sublist (List.drop_sublist 1 bucket) hbAll) ?_ ?_
        · simp only [List.length_drop, hful]
          decide
        · intro g hg
          exact habs g ((List.drop_sublist 1 bucket).subset hg)
      · simp only [dispatchBucket, hfind, hfl, hful, if_false]
        refine BucketLoose_append hbAll ?_ habs
        unfold groBucketSize at *
        omega
    · simpa only [dispatchBucket, hfind, hfl] using hbAll
  · rcases fl with _ | _
    · obtain ⟨hi, hsame, hflr⟩ := findGROPacket_some bucket c.ipHdr c.tcpHdr i false hfind
      have hset : BucketLoose (bucket.set i (mergeEntry (bucket.getD i default) c
          (sub16 c.ipHdr.totalLength (ipv4MinimumSize + c.tcpHdr.dataOffset))
          c.tcpHdr.flags)) :=
        BucketLoose_set hbAll hi (entryKey_mergeEntry _ _ _ _)
      cases hfl : dispatchFlushDecision c mtu
      · simpa only [dispatchBucket, hfind, hfl] using hset
      · simp only [dispatchBucket, hfind, hfl]
        exact BucketLoose_sublist (List.eraseIdx_sublist _ i) hset
    · obtain ⟨hi, hsame, _⟩ := findGROPacket_some bucket c.ipHdr c.tcpHdr i true hfind
      have herase : BucketLoose (bucket.eraseIdx i) :=
        BucketLoose_sublist (List.eraseIdx_sublist _ i) hbAll
      have habs : ∀ g ∈ bucket.eraseIdx i,
          entryKey g ≠ entryKey (mkEntry pkt0 c ep now) := by
        have hz : (bucket.eraseIdx i).countP
            (fun g => decide (entryKey g = candKey c.ipHdr c.tcpHdr)) = 0 := by
          refine countP_eraseIdx_zero (hb3 _) hi ?_
          simp only [decide_eq_true_eq]
          exact ((sameTuple_iff _ _ _).mp hsame).symm
        intro g hg
        rw [entryKey_mkEntry]
        have := List.countP_eq_zero.mp hz g hg
        simpa using this
      cases hfl : dispatchFlushDecision c mtu
      · by_cases hful : (bucket.eraseIdx i).length = groBucketSize
        · simp only [dispatchBucket, hfind, hfl, hful, if_true]
          refine BucketLoose_append
            (BucketLoose_sublist (List.drop_sublist 1 _) herase) ?_ ?_
          · simp only [List.length_drop, hful]
            decide
          · intro g hg
            exact habs g ((List.drop_sublist 1 _).subset hg)
        · simp only [dispatchBucket, hfind, hfl, hful, if_false]
          refine BucketLoose_append herase ?_ habs
          have := herase.1
          unfold groBucketSize at *
          omega
      · simpa only [dispatchBucket, hfind, hfl] using herase

/-- The bucket left by one flush pass is a sublist of the original
bucket (it is the whole bucket or its tail). -/
theorem flushBucketAged_snd_sublist (threshold : Int) (l : List GROPacket) :
    (flushBucketAged threshold l).2.Sublist l := by
  cases l with
  | nil => exact List.Sublist.refl _
  | cons g rest =>
    simp only [flushBucketAged]
    split
    · exact List.sublist_cons_self g rest
    · exact List.Sublist.refl _

/-- The bucket left by one flushAll pass is a sublist of the original
bucket. -/
theorem flushBucketAll_snd_sublist (l : List GROPacket) :
    (flushBucketAll l).2.Sublist l := by
  cases l with
  | nil => exact List.Sublist.refl _
  | cons g rest => exact List.sublist_cons_self g rest

/-- dispatch preserves the dispatcher invariant for well-formed
candidates. -/
theorem dispatch_inv {gd : GROState} {c : Candidate} {ep mtu : Nat} {now : Int}
    (h : StateInv gd) (hc : WFCandidate c) : StateInv (dispatch gd c ep mtu now).1 := by
  simp only [dispatch, dispatchEnabled]
  repeat' split
  any_goals exact h
  intro b
  by_cases hb : b = bucketIdx c
  · subst hb
    show BucketInv (Function.update gd.buckets (bucketIdx c) _ (bucketIdx c))
    rw [Function.update_same]
    exact dispatchBucket_inv _ c _ ep mtu now (h _) hc rfl
  · show BucketInv (Function.update gd.buckets (bucketIdx c) _ b)
    rw [Function.update_noteq hb]
    exact h b

/-- flush preserves the dispatcher invariant. -/
theorem flush_inv {gd : GROState} {now : Int} (h : StateInv gd) :
    StateInv (flush gd now).1 := by
  intro b
  exact BucketInv_sublist (flushBucketAged_snd_sublist _ _) (h b)

/-- flushAll preserves the dispatcher invariant. -/
theorem flushAll_inv {gd : GROState} (h : StateInv gd) : StateInv (flushAll gd).1 := by
  intro b
  exact BucketInv_sublist (flushBucketAll_snd_sublist _) (h b)

/-- The dispatcher invariant holds in every reachable state: buckets stay
bounded by groBucketSize, staged entries stay well-formed (in particular
their coalesced size has never wrapped), and no two staged entries of one
bucket share a flow 4-tuple. -/
theorem reachable_inv {s : GROState} (h : Reachable s) : StateInv s := by
  induction h with
  | init d =>
    intro b
    refine ⟨by simp [init, groBucketSize], by simp [init], by simp [init]⟩
  | step_dispatch s c ep mtu now _ hwf ih => exact dispatch_inv ih hwf
  | step_flush s now _ ih => exact flush_inv ih
  | step_flushAll s _ ih => exact flushAll_inv ih
  | step_setInterval s d _ ih => exact ih

/-- The loose dispatcher invariant: every bucket is bounded with at most
one staged entry per flow key. -/
def StateLoose (s : GROState) : Prop := ∀ b, BucketLoose (s.buckets b)

/-- dispatch preserves the loose invariant for arbitrary candidates. -/
theorem dispatch_loose_inv {gd : GROState} {c : Candidate} {ep mtu : Nat} {now : Int}
    (h : StateLoose gd) : StateLoose (dispatch gd c ep mtu now).1 := by
  simp only [dispatch, dispatchEnabled]
  repeat' split
  any_goals exact h
  intro b
  by_cases hb : b = bucketIdx c
  · rw [hb]
    show BucketLoose (Function.update gd.buckets (bucketIdx c) _ (bucketIdx c))
    rw [Function.update_same]
    exact dispatchBucket_loose_inv _ c _ ep mtu now (h _)
  · show BucketLoose (Function.update gd.buckets (bucketIdx c) _ b)
    rw [Function.update_noteq hb]
    exact h b

/-- The loose invariant holds in every state reachable by arbitrary
operations: buckets stay bounded by groBucketSize and no two staged
entries of one bucket share a flow 4-tuple. -/
theorem reachableAny_loose_inv {s : GROState} (h : ReachableAny s) : StateLoose s := by
  induction h with
  | init d =>
    intro b
    exact ⟨by simp [init, groBucketSize], by simp [init]⟩
  | step_dispatch s c ep mtu now _ ih => exact dispatch_loose_inv ih
  | step_flush s now _ ih =>
    intro b
    exact BucketLoose_sublist (flushBucketAged_snd_sublist _ _) (ih b)
  | step_flushAll s _ ih =>
    intro b
    exact BucketLoose_sublist (flushBucketAll_snd_sublist _) (ih b)
  | step_setInterval s d _ ih => exact ih

/-- The conjunction of all early-exit filters of dispatch passing
(gro.go lines 215-284): GRO enabled, IPv4, headers pulled up, an atomic
datagram, no IP options, TCP with a sane data offset, and checksums in
order (already validated by the link layer, or valid). -/
def PassesFilters (gd : GROState) (c : Candidate) : Prop :=
  gd.intervalNS ≠ 0 ∧ c.netProto = ipv4ProtocolNumber ∧
  ipv4MinimumSize + tcpMinimumSize ≤ c.pkt.data.length ∧
  c.ipHdr.fragmentOffset = 0 ∧ c.ipHdr.moreFragments = false ∧
  c.ipHdr.dontFragment = true ∧
  c.ipHdr.headerLength = ipv4MinimumSize ∧ c.ipHdr.protocol = tcpProtocolNumber ∧
  tcpMinimumSize ≤ c.tcpHdr.dataOffset ∧
  ipv4MinimumSize + c.tcpHdr.dataOffset ≤ c.pkt.data.length ∧
  (c.pkt.rxChecksumValidated = true ∨ c.checksumOk = true)

/-- When all filters pass, dispatch is exactly the bucket logic applied to
the hashed bucket, with the packet marked checksum-validated. -/
theorem dispatch_eq_of_passes {gd : GROState} {c : Candidate} {ep mtu : Nat} {now : Int}
    (h : PassesFilters gd c) :
    dispatch gd c ep mtu now =
      (⟨gd.intervalNS,
        Function.update gd.buckets (bucketIdx c)
          (dispatchBucket (gd.buckets (bucketIdx c)) c
            { c.pkt with rxChecksumValidated := true } ep mtu now).1⟩,
       (dispatchBucket (gd.buckets (bucketIdx c)) c
          { c.pkt with rxChecksumValidated := true } ep mtu now).2) := by
  obtain ⟨h1, h2, h3, h4, h5, h6, h7, h8, h9, h10, h11⟩ := h
  have hck : ¬ (c.pkt.rxChecksumValidated = false ∧ c.checksumOk = false) := by
    rcases h11 with h | h <;> simp [h]
  rw [dispatch, if_neg h1, dispatchEnabled, if_neg (by simp [h2]), if_neg (by omega),
    if_neg (by simp [h4, h5, h6]), if_neg (by simp [h7, h8]),
    if_neg (by omega), if_neg (by omega), if_neg hck]

/-- Bucket logic, no staged flow match, flush decision true: the candidate
is delivered unmerged and the bucket is untouched (gro.go lines
329-331). -/
theorem dispatchBucket_none_flush {bucket : List GROPacket} {c : Candidate}
    {pkt0 : Packet} {ep mtu : Nat} {now : Int}
    (h : (findGROPacket bucket c.ipHdr c.tcpHdr).1 = none)
    (hf : dispatchFlushDecision c mtu = true) :
    dispatchBucket bucket c pkt0 ep mtu now = (bucket, [⟨ep, pkt0⟩]) := by
  rcases hfind : findGROPacket bucket c.ipHdr c.tcpHdr with ⟨oi, fl⟩
  rw [hfind] at h
  rcases oi with _ | i
  · simp only [dispatchBucket, hfind, hf]
    rfl
  · simp at h

/-- Bucket logic, no staged flow match, flush decision false, bucket full:
the oldest entry (the list front) is delivered and removed, then the
candidate is staged at the tail (gro.go lines 332-338). -/
theorem dispatchBucket_none_stage_full {bucket : List GROPacket} {c : Candidate}
    {pkt0 : Packet} {ep mtu : Nat} {now : Int}
    (h : (findGROPacket bucket c.ipHdr c.tcpHdr).1 = none)
    (hf : dispatchFlushDecision c mtu = false)
    (hful : bucket.length = groBucketSize) :
    dispatchBucket bucket c pkt0 ep mtu now =
      (bucket.drop 1 ++ [mkEntry pkt0 c ep now],
       [⟨ep, (bucket.getD 0 default).pkt⟩]) := by
  rcases hfind : findGROPacket bucket c.ipHdr c.tcpHdr with ⟨oi, fl⟩
  rw [hfind] at h
  rcases oi with _ | i
  · simp only [dispatchBucket, hfind, hf, hful, if_true]
    rfl
  · simp at h

/-- Bucket logic, no staged flow match, flush decision false, bucket not
full: the candidate is staged at the tail with nothing delivered. -/
theorem dispatchBucket_none_stage {bucket : List GROPacket} {c : Candidate}
    {pkt0 : Packet} {ep mtu : Nat} {now : Int}
    (h : (findGROPacket bucket c.ipHdr c.tcpHdr).1 = none)
    (hf : dispatchFlushDecision c mtu = false)
    (hful : bucket.length ≠ groBucketSize) :
    dispatchBucket bucket c pkt0 ep mtu now =
      (bucket ++ [mkEntry pkt0 c ep now], []) := by
  rcases hfind : findGROPacket bucket c.ipHdr c.tcpHdr with ⟨oi, fl⟩
  rw [hfind] at h
  rcases oi with _ | i
  · simp only [dispatchBucket, hfind, hf, hful, if_false]
  · simp at h

/-- Bucket logic when a staged same-flow entry is mergeable: the candidate
is merged in place; the merged entry is then delivered and removed exactly
when the flush decision (computed from the raw candidate headers) is true
(gro.go lines 300-312 and 324-328). -/
theorem dispatchBucket_merge {bucket : List GROPacket} {c : Candidate}
    {pkt0 : Packet} {ep mtu : Nat} {now : Int} {i : Nat}
    (hfind : findGROPacket bucket c.ipHdr c.tcpHdr = (some i, false)) :
    dispatchBucket bucket c pkt0 ep mtu now =
      (if dispatchFlushDecision c mtu then
        ((bucket.set i (mergeEntry (bucket.getD i default) c
            (sub16 c.ipHdr.totalLength (ipv4MinimumSize + c.tcpHdr.dataOffset))
            c.tcpHdr.flags)).eraseIdx i,
         [⟨ep, (mergeEntry (bucket.getD i default) c
            (sub16 c.ipHdr.totalLength (ipv4MinimumSize + c.tcpHdr.dataOffset))
            c.tcpHdr.flags).pkt⟩])
      else
        (bucket.set i (mergeEntry (bucket.getD i default) c
            (sub16 c.ipHdr.totalLength (ipv4MinimumSize + c.tcpHdr.dataOffset))
            c.tcpHdr.flags), [])) := by
  have hi : i < bucket.length :=
    (findGROPacket_some bucket c.ipHdr c.tcpHdr i false hfind).1
  have hgetset : ((bucket.set i (mergeEntry (bucket.getD i default) c
      (sub16 c.ipHdr.totalLength (ipv4MinimumSize + c.tcpHdr.dataOffset))
      c.tcpHdr.flags)).getD i default) =
      mergeEntry (bucket.getD i default) c
        (sub16 c.ipHdr.totalLength (ipv4MinimumSize + c.tcpHdr.dataOffset))
        c.tcpHdr.flags := by
    rw [List.getD_eq_getElem _ default (by simpa using hi)]
    exact List.getElem_set_self _
  cases hf : dispatchFlushDecision c mtu
  · rw [if_neg (by simp)]
    simp only [dispatchBucket, hfind, hf]
  · rw [if_pos rfl]
    simp only [dispatchBucket, hfind, hf, hgetset, List.nil_append]

/-- When the loop of findGROPacket finds no same-flow entry it also
reports no flush. -/
theorem findGROPacketAux_none_snd (ip : IPv4Header) (tcp : TCPHeader) :
    ∀ (n : Nat) (l : List GROPacket), (findGROPacketAux ip tcp n l).1 = none →
    (findGROPacketAux ip tcp n l).2 = false := by
  intro n l
  induction l generalizing n with
  | nil => intro _; rfl
  | cons a rest ih =>
    intro h
    by_cases hs : sameTuple ip tcp a
    · simp [findGROPacketAux, hs] at h
    · simp only [findGROPacketAux, hs, Bool.false_eq_true, if_false] at h ⊢
      exact ih (n + 1) h

/-- C10: findGROPacket never pairs a nil entry with a true flush flag:
whenever the returned flush flag is true, the returned entry is a valid
position of one of the bucket's staged entries, so the flush branch of
dispatch never dereferences nil. -/
theorem findGROPacket_flush_implies_entry (bucket : List GROPacket)
    (ip : IPv4Header) (tcp : TCPHeader)
    (h : (findGROPacket bucket ip tcp).2 = true) :
    ∃ i, (findGROPacket bucket ip tcp).1 = some i ∧ i < bucket.length ∧
      (bucket.getD i default) ∈ bucket := by
  rcases hfind : findGROPacket bucket ip tcp with ⟨oi, fl⟩
  rcases oi with _ | i
  · have h2 : (findGROPacket bucket ip tcp).2 = false :=
      findGROPacketAux_none_snd ip tcp 0 bucket
        (by show (findGROPacket bucket ip tcp).1 = none; rw [hfind])
    rw [hfind] at h h2
    simp at h h2
    rw [h] at h2
    cases h2
  · obtain ⟨hi, _, _⟩ := findGROPacket_some bucket ip tcp i fl hfind
    refine ⟨i, by simp [hfind], hi, ?_⟩
    rw [List.getD_eq_getElem bucket default hi]
    exact List.getElem_mem hi

/-- C8: when the stored interval is 0, dispatch takes the disabled
shortcut: it synchronously delivers exactly the input packet, byte for
byte, to the endpoint and leaves the dispatcher state (in particular
every bucket) unchanged. -/
theorem dispatch_disabled_transparent (gd : GROState) (c : Candidate)
    (ep mtu : Nat) (now : Int) (h : gd.intervalNS = 0) :
    dispatch gd c ep mtu now = (gd, [⟨ep, c.pkt⟩]) := by
  rw [dispatch, if_pos h]

/-- C5: in every reachable dispatcher state, every staged entry's
coalesced payload size (excluding the network and transport headers)
is strictly below groMaxPacketSize; moreover the stored uint16 total
length has never wrapped: it still equals the coalesced buffer size, and
payloadSize computes the exact (unwrapped) payload. -/
theorem staged_coalesced_payload_lt_max {s : GROState} (h : Reachable s)
    (b : Fin groNBuckets) (g : GROPacket) (hg : g ∈ s.buckets b) :
    payloadSize g =
      g.ipHdr.totalLength - (ipv4MinimumSize + g.tcpHdr.dataOffset) ∧
    payloadSize g < groMaxPacketSize ∧
    g.ipHdr.totalLength = g.pkt.data.length ∧
    g.pkt.data.length < groMaxPacketSize := by
  obtain ⟨w1, w2, w3⟩ := (reachable_inv h b).2.1 g hg
  have hps : payloadSize g =
      g.ipHdr.totalLength - (ipv4MinimumSize + g.tcpHdr.dataOffset) := sub16_eq w2 w3
  refine ⟨hps, ?_, w1, w1 ▸ w3⟩
  rw [hps]
  unfold groMaxPacketSize at *
  omega

/-- A list whose count of entries satisfying a predicate is at most one
cannot satisfy the predicate at two distinct positions. -/
theorem countP_le_one_two_positions {l : List GROPacket} {p : GROPacket → Bool}
    (h : l.countP p ≤ 1) {i j : Nat} (hij : i < j) (hj : j < l.length)
    (hpi : p (l.getD i default) = true) (hpj : p (l.getD j default) = true) :
    False := by
  have hi : i < l.length := lt_trans hij hj
  have hl : l = List.take i l ++ l[i] :: List.drop (i + 1) l := by
    rw [← List.drop_eq_getElem_cons hi, List.take_append_drop]
  rw [hl, List.countP_append, List.countP_cons] at h
  rw [List.getD_eq_getElem l default hi] at hpi
  have hjd : j - (i + 1) < (List.drop (i + 1) l).length := by
    simp only [List.length_drop]
    omega
  have hgd : (List.drop (i + 1) l)[j - (i + 1)] = l[j] := by
    rw [List.getElem_drop]
    congr 1
    omega
  have hpos : 0 < (List.drop (i + 1) l).countP p := by
    rw [List.countP_pos_iff]
    refine ⟨l[j], hgd ▸ List.getElem_mem hjd, ?_⟩
    rw [List.getD_eq_getElem l default hj] at hpj
    exact hpj
  rw [hpi, if_pos rfl] at h
  omega

/-- Entries at two distinct positions of a list with per-key count at most
one have distinct flow keys. -/
theorem countP_le_one_pairwise {l : List GROPacket}
    (h : ∀ k, l.countP (fun g => decide (entryKey g = k)) ≤ 1)
    {i j : Nat} (hij : i < j) (hj : j < l.length) :
    entryKey (l.getD i default) ≠ entryKey (l.getD j default) := by
  intro heq
  exact countP_le_one_two_positions (h (entryKey (l.getD j default))) hij hj
    (decide_eq_true heq) (decide_eq_true rfl)

/-- C6: in every state reachable by any sequence of dispatch, flush and
flushAll operations from the initial state, no bucket holds two staged
entries with the same flow 4-tuple: entries at distinct positions of one
bucket always have distinct keys, so at most one in-progress coalesced
packet per flow exists. -/
theorem no_two_staged_entries_same_flow {s : GROState} (h : ReachableAny s)
    (b : Fin groNBuckets) {i j : Nat} (hij : i < j)
    (hj : j < (s.buckets b).length) :
    entryKey ((s.buckets b).getD i default) ≠
      entryKey ((s.buckets b).getD j default) :=
  countP_le_one_pairwise (reachableAny_loose_inv h b).2 hij hj

/-- C4: once the filters pass, the handling of the incoming segment is
governed exactly by dispatchFlushDecision, i.e. by
`uint32(candidateTotalLength) != mtu || candidateFlags &
(URG|PSH|RST|SYN|FIN) != 0` computed from the raw candidate headers (not
from the merged entry's updated headers): with no staged flow match and a
true decision the candidate is delivered with the buckets unchanged, and
after a merge the merged entry is delivered and removed iff the decision
is true. -/
theorem dispatch_flush_decision_from_raw_candidate (gd : GROState) (c : Candidate)
    (ep mtu : Nat) (now : Int) (hpass : PassesFilters gd c) :
    ((findGROPacket (gd.buckets (bucketIdx c)) c.ipHdr c.tcpHdr).1 = none →
      dispatchFlushDecision c mtu = true →
      dispatch gd c ep mtu now =
        (gd, [⟨ep, { c.pkt with rxChecksumValidated := true }⟩])) ∧
    (∀ i, findGROPacket (gd.buckets (bucketIdx c)) c.ipHdr c.tcpHdr = (some i, false) →
      (dispatchFlushDecision c mtu = true →
        dispatch gd c ep mtu now =
          (⟨gd.intervalNS, Function.update gd.buckets (bucketIdx c)
            (((gd.buckets (bucketIdx c)).set i
              (mergeEntry ((gd.buckets (bucketIdx c)).getD i default) c
                (sub16 c.ipHdr.totalLength (ipv4MinimumSize + c.tcpHdr.dataOffset))
                c.tcpHdr.flags)).eraseIdx i)⟩,
           [⟨ep, (mergeEntry ((gd.buckets (bucketIdx c)).getD i default) c
              (sub16 c.ipHdr.totalLength (ipv4MinimumSize + c.tcpHdr.dataOffset))
              c.tcpHdr.flags).pkt⟩])) ∧
      (dispatchFlushDecision c mtu = false →
        dispatch gd c ep mtu now =
          (⟨gd.intervalNS, Function.update gd.buckets (bucketIdx c)
            ((gd.buckets (bucketIdx c)).set i
              (mergeEntry ((gd.buckets (bucketIdx c)).getD i default) c
                (sub16 c.ipHdr.totalLength (ipv4MinimumSize + c.tcpHdr.dataOffset))
                c.tcpHdr.flags))⟩,
           []))) := by
  refine ⟨?_, ?_⟩
  · intro hnone hflush
    rw [dispatch_eq_of_passes hpass, dispatchBucket_none_flush hnone hflush]
    rw [Function.update_eq_self]
  · intro i hfind
    refine ⟨?_, ?_⟩ <;> intro hfl <;>
      rw [dispatch_eq_of_passes hpass, dispatchBucket_merge hfind, hfl] <;> simp

/-- C7: when dispatch stages a new segment (no flush, no flow match) into
a full bucket, the oldest entry (the front of the list) is delivered and
removed before the candidate is staged at the tail with an extra reference
on its packet; and dispatch preserves the bound
`length ≤ groBucketSize` on every bucket. -/
theorem dispatch_full_bucket_evicts_oldest (gd : GROState) (c : Candidate)
    (ep mtu : Nat) (now : Int) (hpass : PassesFilters gd c)
    (hnone : (findGROPacket (gd.buckets (bucketIdx c)) c.ipHdr c.tcpHdr).1 = none)
    (hnoflush : dispatchFlushDecision c mtu = false)
    (hfull : (gd.buckets (bucketIdx c)).length = groBucketSize) :
    (dispatch gd c ep mtu now).2 =
      [⟨ep, ((gd.buckets (bucketIdx c)).getD 0 default).pkt⟩] ∧
    (dispatch gd c ep mtu now).1.buckets (bucketIdx c) =
      (gd.buckets (bucketIdx c)).drop 1 ++
        [mkEntry { c.pkt with rxChecksumValidated := true } c ep now] ∧
    (mkEntry { c.pkt with rxChecksumValidated := true } c ep now).pkt.refCount =
      c.pkt.refCount + 1 ∧
    (∀ s, ReachableAny s → ∀ b, (s.buckets b).length ≤ groBucketSize) := by
  rw [dispatch_eq_of_passes hpass,
    dispatchBucket_none_stage_full hnone hnoflush hfull]
  refine ⟨rfl, ?_, rfl, fun s hs b => (reachableAny_loose_inv hs b).1⟩
  show Function.update gd.buckets (bucketIdx c) _ (bucketIdx c) = _
  rw [Function.update_same]

/-- C9 (amended): setInterval stores a negative interval verbatim, and
since the disabled shortcut of dispatch fires only when the stored
interval is exactly 0, dispatch with a negative stored interval does not
take the disabled shortcut: it runs the full GRO-enabled path. -/
theorem setInterval_negative_not_disabled (gd : GROState) (d : Int) (c : Candidate)
    (ep mtu : Nat) (now : Int) (hd : d < 0) :
    (setInterval gd d).intervalNS = d ∧
    dispatch (setInterval gd d) c ep mtu now =
      dispatchEnabled (setInterval gd d) c ep mtu now := by
  refine ⟨rfl, ?_⟩
  rw [dispatch, if_neg]
  show ¬(setInterval gd d).intervalNS = 0
  show ¬d = 0
  omega

/-- Modelled from the spec: the candidate segment's payload size as the
specification sentence measures it (total length minus network and
transport headers). -/
def candPayloadSize (ip : IPv4Header) (tcp : TCPHeader) : Nat :=
  ip.totalLength - (ipv4MinimumSize + tcp.dataOffset)

/-- Modelled from the spec: a staged entry's coalesced payload size,
excluding the network and transport headers. -/
def coalescedPayloadSize (g : GROPacket) : Nat :=
  g.ipHdr.totalLength - (ipv4MinimumSize + g.tcpHdr.dataOffset)

/-- Modelled from the spec: the MatchMergeable classification exactly as
the specification states it, in particular with the size bound
`entry.coalescedPayloadSize + candidate.payloadSize < GRO_MAX`. -/
def specMergeable (g : GROPacket) (ip : IPv4Header) (tcp : TCPHeader) : Prop :=
  sameTuple ip tcp g = true ∧
  ip.ttl = g.ipHdr.ttl ∧ ip.tos = g.ipHdr.tos ∧
  tcp.flags &&& tcpFlagCwr = 0 ∧
  (tcp.flags ^^^ g.tcpHdr.flags) &&& tcpFlagDiffMask = 0 ∧
  tcp.ackNum = g.tcpHdr.ackNum ∧
  tcp.dataOffset = g.tcpHdr.dataOffset ∧
  (g.tcpHdr.seqNum + payloadSize g) % 4294967296 = tcp.seqNum % 4294967296 ∧
  tcp.options = g.tcpHdr.options ∧
  coalescedPayloadSize g + candPayloadSize ip tcp < groMaxPacketSize

/-- The MatchMergeable classification with the size bound the code
actually enforces: the candidate's payload plus the entry's whole stored
buffer (headers included) must stay below groMaxPacketSize, i.e.
`coalescedPayloadSize + candPayloadSize <
groMaxPacketSize - (IPv4MinimumSize + tcpHeaderLength)`. -/
def specMergeableAmended (g : GROPacket) (ip : IPv4Header) (tcp : TCPHeader) : Prop :=
  sameTuple ip tcp g = true ∧
  ip.ttl = g.ipHdr.ttl ∧ ip.tos = g.ipHdr.tos ∧
  tcp.flags &&& tcpFlagCwr = 0 ∧
  (tcp.flags ^^^ g.tcpHdr.flags) &&& tcpFlagDiffMask = 0 ∧
  tcp.ackNum = g.tcpHdr.ackNum ∧
  tcp.dataOffset = g.tcpHdr.dataOffset ∧
  (g.tcpHdr.seqNum + payloadSize g) % 4294967296 = tcp.seqNum % 4294967296 ∧
  tcp.options = g.tcpHdr.options ∧
  coalescedPayloadSize g + candPayloadSize ip tcp <
    groMaxPacketSize - (ipv4MinimumSize + g.tcpHdr.dataOffset)

/-- Unfolding of findGROPacket on a singleton bucket. -/
theorem findGROPacket_singleton (g : GROPacket) (ip : IPv4Header) (tcp : TCPHeader) :
    findGROPacket [g] ip tcp =
      if sameTuple ip tcp g then (some 0, entryFlushRequired g ip tcp)
      else (none, false) := rfl

/-- Boolean flush classification unpacked into an iff. -/
theorem entryFlushRequired_eq_false_iff (g : GROPacket) (ip : IPv4Header)
    (tcp : TCPHeader) :
    entryFlushRequired g ip tcp = false ↔
    (ip.ttl = g.ipHdr.ttl ∧ ip.tos = g.ipHdr.tos ∧
     tcp.flags &&& tcpFlagCwr = 0 ∧
     (tcp.flags ^^^ g.tcpHdr.flags) &&& tcpFlagDiffMask = 0 ∧
     tcp.ackNum = g.tcpHdr.ackNum ∧
     tcp.dataOffset = g.tcpHdr.dataOffset ∧
     (g.tcpHdr.seqNum + payloadSize g) % 4294967296 = tcp.seqNum % 4294967296 ∧
     tcp.options = g.tcpHdr.options ∧
     (ip.totalLength : Int) - (ipv4MinimumSize : Int) - (tcp.dataOffset : Int) +
       (g.pkt.data.length : Int) < 65536) := by
  constructor
  · exact entryFlushRequired_eq_false
  · intro h
    simp only [entryFlushRequired, Bool.or_eq_false_iff, decide_eq_false_iff_not,
      not_not, not_le, not_lt]
    tauto

/-- C3 (amended): for a well-formed staged entry and a candidate whose
headers fit its total length, findGROPacket on the entry's bucket
classifies the pair as mergeable iff the amended specification predicate
holds (spec size bound corrected by the entry's header size), and reports
no match iff the 4-tuple differs. -/
theorem findGROPacket_classification_amended (g : GROPacket) (ip : IPv4Header)
    (tcp : TCPHeader) (hg : StagedWF g)
    (hoff : ipv4MinimumSize + tcp.dataOffset ≤ ip.totalLength) :
    (findGROPacket [g] ip tcp = (some 0, false) ↔ specMergeableAmended g ip tcp) ∧
    ((findGROPacket [g] ip tcp).1 = none ↔ sameTuple ip tcp g = false) := by
  obtain ⟨w1, w2, w3⟩ := hg
  have hsize : ((ip.totalLength : Int) - (ipv4MinimumSize : Int) -
      (tcp.dataOffset : Int) + (g.pkt.data.length : Int) < 65536) ↔
      (coalescedPayloadSize g + candPayloadSize ip tcp <
        groMaxPacketSize - (ipv4MinimumSize + g.tcpHdr.dataOffset)) := by
    rw [← w1] at *
    unfold coalescedPayloadSize candPayloadSize groMaxPacketSize ipv4MinimumSize at *
    constructor <;> intro <;> omega
  by_cases hs : sameTuple ip tcp g
  · rw [findGROPacket_singleton, if_pos hs]
    constructor
    · constructor
      · intro h
        have hf : entryFlushRequired g ip tcp = false := by
          have := congrArg Prod.snd h
          simpa using this
        obtain ⟨a1, a2, a3, a4, a5, a6, a7, a8, a9⟩ :=
          (entryFlushRequired_eq_false_iff g ip tcp).mp hf
        exact ⟨hs, a1, a2, a3, a4, a5, a6, a7, a8, hsize.mp a9⟩
      · intro h
        obtain ⟨_, a1, a2, a3, a4, a5, a6, a7, a8, a9⟩ := h
        have hf : entryFlushRequired g ip tcp = false :=
          (entryFlushRequired_eq_false_iff g ip tcp).mpr
            ⟨a1, a2, a3, a4, a5, a6, a7, a8, hsize.mpr a9⟩
        rw [hf]
    · simp [hs]
  · rw [findGROPacket_singleton, if_neg hs]
    constructor
    · constructor
      · intro h
        simp at h
      · intro h
        exact absurd h.1 hs
    · simp only [Bool.not_eq_true] at hs
      simp [hs]

/-- Fixture: an IPv4 header of one test flow. -/
def testIp (tl : Nat) : IPv4Header :=
  { totalLength := tl, headerLength := 20, ttl := 64, tos := 0, fragmentOffset := 0,
    moreFragments := false, dontFragment := true, protocol := 6,
    srcAddr := [10, 0, 0, 1], dstAddr := [10, 0, 0, 2] }

/-- Fixture: a TCP header (ACK set, no options). -/
def testTcp (sport seq : Nat) : TCPHeader :=
  { srcPort := sport, dstPort := 2000, seqNum := seq, ackNum := 5, dataOffset := 20,
    flags := 16, options := [] }

/-- Fixture: a well-formed candidate whose buffer length equals its total
length, already checksum-validated by the link layer. -/
def testCand (tl sport seq : Nat) : Candidate :=
  { pkt := ⟨List.replicate tl 0, 1, true⟩, netProto := ipv4ProtocolNumber,
    ipHdr := testIp tl, tcpHdr := testTcp sport seq, checksumOk := true }

/-- Fixture: a staged entry of the same shape. -/
def testEntry (tl sport seq : Nat) : GROPacket :=
  { pkt := ⟨List.replicate tl 0, 1, true⟩, ipHdr := testIp tl,
    tcpHdr := testTcp sport seq, created := 0, ep := 3 }

/-- C3 (counterexample): a staged entry of total length 65535 (so 65495
coalesced payload bytes) and a same-flow candidate with 30 payload bytes
satisfy every MatchMergeable condition of the specification, including its
size bound 65495 + 30 < GRO_MAX, yet findGROPacket classifies the pair as
flush-required, because the code's size check adds the entry's whole
stored buffer (headers included): 30 + 65535 >= GRO_MAX. -/
theorem findGROPacket_size_check_counterexample :
    StagedWF (testEntry 65535 1000 1000) ∧
    specMergeable (testEntry 65535 1000 1000) (testIp 70) (testTcp 1000 66495) ∧
    findGROPacket [testEntry 65535 1000 1000] (testIp 70) (testTcp 1000 66495) =
      (some 0, true) := by
  have hlen : (testEntry 65535 1000 1000).pkt.data.length = 65535 :=
    List.length_replicate 65535 0
  refine ⟨⟨hlen.symm, by norm_num [testEntry, testIp, testTcp, ipv4MinimumSize],
    by norm_num [testEntry, testIp, groMaxPacketSize]⟩,
    by unfold specMergeable; decide, ?_⟩
  rw [findGROPacket_singleton, if_pos (by decide)]
  have hsz : decide ((65536 : Int) ≤
      ((testIp 70).totalLength : Int) - (ipv4MinimumSize : Int) -
      (((testTcp 1000 66495).dataOffset : Nat) : Int) +
      ((testEntry 65535 1000 1000).pkt.data.length : Int)) = true := by
    rw [decide_eq_true_eq, hlen]
    norm_num [testIp, testTcp, ipv4MinimumSize]
  have hefr : entryFlushRequired (testEntry 65535 1000 1000) (testIp 70)
      (testTcp 1000 66495) = true := by
    unfold entryFlushRequired
    rw [hsz, Bool.or_true]
  rw [hefr]

/-- Fixture: the state after staging two distinct well-formed flows that
hash to bucket 7, reached from the initial state by two dispatch calls
(interval 10 ns, MTU 60, arrival times 0 and 1). -/
def twoStagedState : GROState :=
  (dispatch (dispatch (init 10) (testCand 60 1000 1) 3 60 0).1
    (testCand 60 1008 1) 3 60 1).1

/-- C1 (code divergence): bucket 7 of `twoStagedState` holds two staged
entries, both older than the flush threshold `now - interval = 90`, yet
one flush pass delivers only one of them and leaves the other staged: in
the flush loop, `removeOne` resets the removed groPacket to its zero
value, so the saved iterator's Next pointer is nil and the walk stops
after the first removal instead of continuing to the next aged entry. -/
theorem flush_aged_delivers_only_front :
    (twoStagedState.buckets ⟨7, by decide⟩).length = 2 ∧
    ((twoStagedState.buckets ⟨7, by decide⟩).all
      fun g => decide (g.created < 100 - 10)) = true ∧
    (flush twoStagedState 100).2.length = 1 ∧
    ((flush twoStagedState 100).1.buckets ⟨7, by decide⟩).length = 1 := by
  refine ⟨?_, ?_, ?_, ?_⟩ <;> decide

/-- C2 (code divergence): flushAll on `twoStagedState` delivers only the
front entry of bucket 7 and leaves the second entry staged, for the same
reason as in the aged flush: the loop stops after the first removeOne. -/
theorem flushAll_delivers_only_front :
    (twoStagedState.buckets ⟨7, by decide⟩).length = 2 ∧
    (flushAll twoStagedState).2.length = 1 ∧
    ((flushAll twoStagedState).1.buckets ⟨7, by decide⟩).length = 1 := by
  refine ⟨?_, ?_, ?_⟩ <;> decide

/-- Modelled from the spec (section 3 and 9: the bucket list is an
intrusive doubly-linked list over preallocated slots): one slot of the
bucket pool, holding the intrusive next/prev pointers and the entry data
relevant here.  The zero value (the Go zero groPacket written by
`*pkt = groPacket{}` in removeOne, gro.go line 101) has nil pointers. -/
structure LNode where
  used : Bool := false
  nxt : Option (Fin groBucketSize) := none
  prv : Option (Fin groBucketSize) := none
  created : Int := 0
deriving DecidableEq, Inhabited

/-- Modelled from the spec: the intrusive list header (front and back
pointers into the slot pool). -/
structure LBucket where
  head : Option (Fin groBucketSize) := none
  tail : Option (Fin groBucketSize) := none
  nodes : Fin groBucketSize → LNode

/-- Modelled from the spec: list.Remove of the intrusive list: splice the
node out (updating neighbours and the head/tail pointers) and nil the
removed node's own next/prev pointers. -/
def llRemove (l : LBucket) (e : Fin groBucketSize) : LBucket :=
  let nx := (l.nodes e).nxt
  let pv := (l.nodes e).prv
  let l1 :=
    match pv with
    | some p => { l with nodes := Function.update l.nodes p { l.nodes p with nxt := nx } }
    | none => if l.head = some e then { l with head := nx } else l
  let l2 :=
    match nx with
    | some q =>
      { l1 with nodes := Function.update l1.nodes q { l1.nodes q with prv := pv } }
    | none => if l1.tail = some e then { l1 with tail := pv } else l1
  { l2 with nodes := Function.update l2.nodes e { l2.nodes e with nxt := none, prv := none } }

/-- groBucket.removeOne (gro.go lines 97-102) at node level: Remove the
node from the list, then `*pkt = groPacket{}` resets the whole slot to the
zero value. -/
def llRemoveOne (l : LBucket) (e : Fin groBucketSize) : LBucket :=
  let l1 := llRemove l e
  { l1 with nodes := Function.update l1.nodes e {} }

/-- The flush loop of groDispatcher.flush (gro.go lines 420-429) at node
level: `cur` models the iterator groPkt; after an aged node is delivered
and removed, the loop's post statement reads the Next pointer of the very
node that removeOne has just reset.  Fuel bounds the recursion (the pool
has groBucketSize slots).  Returns the final bucket and the delivered
slots in order. -/
def llFlushLoop :
    Nat → Int → LBucket → Option (Fin groBucketSize) →
      LBucket × List (Fin groBucketSize)
  | 0, _, l, _ => (l, [])
  | _ + 1, _, l, none => (l, [])
  | fuel + 1, th, l, some e =>
    if (l.nodes e).created < th then
      let l1 := llRemoveOne l e
      let next := (l1.nodes e).nxt
      let r := llFlushLoop fuel th l1 next
      (r.1, e :: r.2)
    else (l, [])

/-- A two-node intrusive bucket: slot 0 is the front (created 0), slot 1
the back (created 1); both will be older than any positive threshold. -/
def llTwoAged : LBucket :=
  { head := some ⟨0, by decide⟩, tail := some ⟨1, by decide⟩,
    nodes := fun i =>
      if i = ⟨0, by decide⟩ then
        { used := true, nxt := some ⟨1, by decide⟩, prv := none, created := 0 }
      else if i = ⟨1, by decide⟩ then
        { used := true, nxt := none, prv := some ⟨0, by decide⟩, created := 1 }
      else {} }

/-- Running the node-level flush loop on the two-aged-node bucket at
threshold 90 delivers only the front node: after removeOne resets slot 0,
the iterator's Next pointer is nil and the loop ends with node 1 still at
the head of the list. -/
theorem llFlushLoop_stops_after_first_removal :
    (llFlushLoop groBucketSize 90 llTwoAged llTwoAged.head).2 = [⟨0, by decide⟩] ∧
    (llFlushLoop groBucketSize 90 llTwoAged llTwoAged.head).1.head =
      some ⟨1, by decide⟩ ∧
    ((llFlushLoop groBucketSize 90 llTwoAged llTwoAged.head).1.nodes
      ⟨1, by decide⟩).created = 1 ∧
    ((llFlushLoop groBucketSize 90 llTwoAged llTwoAged.head).1.nodes
      ⟨1, by decide⟩).used = true := by
  refine ⟨?_, ?_, ?_, ?_⟩ <;> decide

/-- Witness state for the eviction theorem: bucket 7 holds eight staged
flows. -/
def gd7 : GROState :=
  { intervalNS := 10,
    buckets := Function.update (fun _ => []) ⟨7, by decide⟩
      [testEntry 60 1000 1, testEntry 60 1008 1, testEntry 60 1016 1,
       testEntry 60 1024 1, testEntry 60 1032 1, testEntry 60 1040 1,
       testEntry 60 1048 1, testEntry 60 1056 1] }

/-- Witness state for the flush-decision theorem: bucket 7 holds one
staged flow that the witness candidate can merge into. -/
def gd4 : GROState :=
  { intervalNS := 10,
    buckets := Function.update (fun _ => []) ⟨7, by decide⟩
      [testEntry 60 1000 1000] }

/-- Witness for the disabled-transparency theorem at a concrete packet. -/
theorem dispatch_disabled_transparent_witness :
    dispatch (init 0) (testCand 60 1000 1) 7 60 0 =
      (init 0, [⟨7, (testCand 60 1000 1).pkt⟩]) :=
  dispatch_disabled_transparent (init 0) (testCand 60 1000 1) 7 60 0 rfl

/-- Witness for the flush-implies-entry theorem: a same-flow candidate
with the CWR flag set forces the staged entry to be flushed. -/
theorem findGROPacket_flush_implies_entry_witness :
    ∃ i, (findGROPacket [testEntry 60 1000 1]
        (testIp 60) { testTcp 1000 21 with flags := 144 }).1 = some i ∧
      i < ([testEntry 60 1000 1] : List GROPacket).length ∧
      (([testEntry 60 1000 1] : List GROPacket).getD i default) ∈
        [testEntry 60 1000 1] :=
  findGROPacket_flush_implies_entry [testEntry 60 1000 1] (testIp 60)
    { testTcp 1000 21 with flags := 144 } (by decide)

/-- Witness for the coalesced-size invariant: the entry staged by one
dispatch from the initial state has payload 20 < groMaxPacketSize. -/
theorem staged_coalesced_payload_lt_max_witness :
    payloadSize (mkEntry ⟨List.replicate 60 0, 1, true⟩ (testCand 60 1000 1) 3 0) <
      groMaxPacketSize := by
  have hr : Reachable (dispatch (init 10) (testCand 60 1000 1) 3 60 0).1 :=
    Reachable.step_dispatch (init 10) (testCand 60 1000 1) 3 60 0
      (Reachable.init 10) (by unfold WFCandidate; decide)
  exact (staged_coalesced_payload_lt_max hr ⟨7, by decide⟩
    (mkEntry ⟨List.replicate 60 0, 1, true⟩ (testCand 60 1000 1) 3 0)
    (by decide)).2.1

/-- Witness for flow-key uniqueness: the two entries staged in bucket 7 of
`twoStagedState` carry distinct 4-tuples. -/
theorem no_two_staged_entries_same_flow_witness :
    entryKey ((twoStagedState.buckets ⟨7, by decide⟩).getD 0 default) ≠
      entryKey ((twoStagedState.buckets ⟨7, by decide⟩).getD 1 default) := by
  have hr : ReachableAny twoStagedState :=
    ReachableAny.step_dispatch (dispatch (init 10) (testCand 60 1000 1) 3 60 0).1
      (testCand 60 1008 1) 3 60 1
      (ReachableAny.step_dispatch (init 10) (testCand 60 1000 1) 3 60 0
        (ReachableAny.init 10))
  exact no_two_staged_entries_same_flow hr ⟨7, by decide⟩ (by decide) (by decide)

/-- Witness for the raw-candidate flush decision theorem: a same-flow
MTU-sized pure-ACK candidate is merged into the staged entry and, since
the decision is false, nothing is delivered. -/
theorem dispatch_flush_decision_from_raw_candidate_witness :
    (dispatch gd4 (testCand 60 1000 1020) 9 60 5).2 = [] := by
  have h := (dispatch_flush_decision_from_raw_candidate gd4 (testCand 60 1000 1020)
    9 60 5 (by unfold PassesFilters; decide)).2 0 (by decide)
  rw [h.2 (by decide)]

/-- Witness for the eviction theorem: dispatching a ninth flow into the
full bucket 7 delivers the oldest staged entry. -/
theorem dispatch_full_bucket_evicts_oldest_witness :
    (dispatch gd7 (testCand 60 1064 1) 3 60 9).2 =
      [⟨3, (testEntry 60 1000 1).pkt⟩] := by
  have h := (dispatch_full_bucket_evicts_oldest gd7 (testCand 60 1064 1) 3 60 9
    (by unfold PassesFilters; decide) (by decide) (by decide) (by decide)).1
  rw [h]
  decide

/-- C9 (counterexample): after setInterval(-5), dispatch of a stageable
packet does not behave as in the disabled state: it delivers nothing
(the packet is staged), whereas the disabled shortcut would deliver
exactly the input packet with the state unchanged. -/
theorem setInterval_negative_counterexample :
    (dispatch (setInterval (init 1000000) (-5)) (testCand 60 1000 1) 7 60 0).2 = [] ∧
    dispatch (setInterval (init 1000000) (-5)) (testCand 60 1000 1) 7 60 0 ≠
      (setInterval (init 1000000) (-5), [⟨7, (testCand 60 1000 1).pkt⟩]) := by
  have h : (dispatch (setInterval (init 1000000) (-5))
      (testCand 60 1000 1) 7 60 0).2 = [] := by decide
  refine ⟨h, ?_⟩
  intro hc
  rw [hc] at h
  simp at h

/-- Witness for the amended negative-interval theorem at concrete
inputs. -/
theorem setInterval_negative_not_disabled_witness :
    dispatch (setInterval (init 7) (-3)) (testCand 60 1000 1) 2 60 0 =
      dispatchEnabled (setInterval (init 7) (-3)) (testCand 60 1000 1) 2 60 0 :=
  (setInterval_negative_not_disabled (init 7) (-3) (testCand 60 1000 1) 2 60 0
    (by norm_num)).2

/-- Witness for the amended matcher classification at a concrete
mergeable pair. -/
theorem findGROPacket_classification_amended_witness :
    findGROPacket [testEntry 60 1000 1000] (testIp 60) (testTcp 1000 1020) =
      (some 0, false) :=
  ((findGROPacket_classification_amended (testEntry 60 1000 1000) (testIp 60)
    (testTcp 1000 1020) (by unfold StagedWF; decide) (by decide)).1).mpr
    (by unfold specMergeableAmended; decide)
